import Mathlib

/-!
Verification of the page-compilation pipeline in `compilation/compile_pages.py`
of the rit-food-review repository.

The script's data values (parsed JSONC plus the Python objects the script
stores back into its records, such as `datetime` instances) are embedded as
the inductive type `Value`.  Each normalization step of `main` and each helper
function of the script is translated into a Lean definition of the same name
(Python's `snake_case` kept where Lean allows).  Python exceptions that can
escape a computation are modelled with `Except PyErr`; exception-free code is
a plain function.
-/

namespace RitFood

/-- A naive Python `datetime` (year, month, day, hour, minute, second),
as produced by `datetime.fromisoformat` on the date strings of this
repository.  Comparison is lexicographic, as in Python. -/
structure PyDateTime where
  year : Nat
  month : Nat
  day : Nat
  hour : Nat
  minute : Nat
  second : Nat
deriving DecidableEq, Repr

/-- `datetime.min` = 0001-01-01 00:00:00, the sort fallback used in
`main` for reviews without a parsed date. -/
def dtMin : PyDateTime := ⟨1, 1, 1, 0, 0, 0⟩

/-- Python datetime comparison `a <= b` (lexicographic on the fields). -/
def dtLe (a b : PyDateTime) : Bool :=
  decide (a.year < b.year ∨ (a.year = b.year ∧ (a.month < b.month ∨ (a.month = b.month ∧
    (a.day < b.day ∨ (a.day = b.day ∧ (a.hour < b.hour ∨ (a.hour = b.hour ∧
    (a.minute < b.minute ∨ (a.minute = b.minute ∧ a.second ≤ b.second))))))))))

/-- The dynamic values manipulated by `compile_pages.py`: JSON-superset data
(null, booleans, integers, strings, arrays, objects) plus `datetime` objects
that `main` stores into records (`date_parsed`, `created_at_parsed`, ...).
Objects are association lists with distinct keys, in insertion order, like
Python dicts. -/
inductive Value where
  | null : Value
  | bool : Bool → Value
  | int : Int → Value
  | str : String → Value
  | list : List Value → Value
  | dict : List (String × Value) → Value
  | dt : PyDateTime → Value

namespace Value

/-- Python truthiness of a value: `None`, `False`, `0`, `""`, `[]`, `{}` are
falsy, everything else (including any `datetime`) is truthy. -/
def truthy : Value → Bool
  | .null => false
  | .bool b => b
  | .int n => n ≠ 0
  | .str s => s ≠ ""
  | .list xs => !xs.isEmpty
  | .dict kvs => !kvs.isEmpty
  | .dt _ => true

/-- Python `a or b`: `a` if truthy, else `b`. -/
def pyOr (a b : Value) : Value := if a.truthy then a else b

def isDict : Value → Bool
  | .dict _ => true
  | _ => false

def isStr : Value → Bool
  | .str _ => true
  | _ => false

def isList : Value → Bool
  | .list _ => true
  | _ => false

end Value

/-- First binding of `k` in an association list (dicts have distinct keys, so
this is the binding). -/
def lookupKV (kvs : List (String × Value)) (k : String) : Option Value :=
  match kvs with
  | [] => none
  | (k2, v) :: rest => if k2 = k then some v else lookupKV rest k

/-- Python `d.get(k)`: the stored value, or `None` when the key is absent. -/
def dictGet (kvs : List (String × Value)) (k : String) : Value :=
  (lookupKV kvs k).getD .null

/-- Python `k in d`. -/
def dictHas (kvs : List (String × Value)) (k : String) : Bool :=
  (lookupKV kvs k).isSome

/-- Python `d[k] = v`: update the first binding in place, else append
(insertion order preserved, as for Python dicts). -/
def dictSet (kvs : List (String × Value)) (k : String) (v : Value) :
    List (String × Value) :=
  match kvs with
  | [] => [(k, v)]
  | (k2, w) :: rest =>
      if k2 = k then (k2, v) :: rest else (k2, w) :: dictSet rest k v

def Value.isNull : Value → Bool
  | .null => true
  | _ => false

/-- ASCII single-quote character, used by the Python `repr` of strings. -/
def squote : String := "\x27"

def pad2 (n : Nat) : String :=
  if n < 10 then "0" ++ toString n else toString n

def pad4 (n : Nat) : String :=
  if n < 10 then "000" ++ toString n
  else if n < 100 then "00" ++ toString n
  else if n < 1000 then "0" ++ toString n else toString n

/-- `str()` of a naive datetime: `YYYY-MM-DD HH:MM:SS`. -/
def dtStr (d : PyDateTime) : String :=
  pad4 d.year ++ "-" ++ pad2 d.month ++ "-" ++ pad2 d.day ++ " " ++
    pad2 d.hour ++ ":" ++ pad2 d.minute ++ ":" ++ pad2 d.second

mutual
/-- Python `str(v)`.  Scalars follow Python exactly; for containers this is
Python `repr` modulo string-escape minutiae (quote and backslash escaping
inside string elements is not reproduced); no claim evaluates those cases. -/
def pyStr : Value → String
  | .null => "None"
  | .bool b => if b then "True" else "False"
  | .int n => toString n
  | .str s => s
  | .list xs => "[" ++ String.intercalate ", " (pyReprList xs) ++ "]"
  | .dict kvs => "\x7b" ++ String.intercalate ", " (pyReprKVs kvs) ++ "\x7d"
  | .dt d => dtStr d

def pyRepr : Value → String
  | .str s => squote ++ s ++ squote
  | .null => "None"
  | .bool b => if b then "True" else "False"
  | .int n => toString n
  | .list xs => "[" ++ String.intercalate ", " (pyReprList xs) ++ "]"
  | .dict kvs => "\x7b" ++ String.intercalate ", " (pyReprKVs kvs) ++ "\x7d"
  | .dt d => dtStr d

def pyReprList : List Value → List String
  | [] => []
  | x :: xs => pyRepr x :: pyReprList xs

def pyReprKVs : List (String × Value) → List String
  | [] => []
  | (k, v) :: kvs => (squote ++ k ++ squote ++ ": " ++ pyRepr v) :: pyReprKVs kvs
end

/-! ## Python string primitives

The script uses `str.strip`, `str.lower`, `str.split(',')` and
`str.startswith`.  They are modelled structurally over the character list of
the string (so that concrete runs reduce inside the kernel); `strip` uses the
ASCII whitespace set, `lower` the ASCII case map, both of which Python agrees
with on this repository's data. -/

/-- The ASCII whitespace characters stripped by Python `str.strip()`. -/
def isSpaceChar (c : Char) : Bool :=
  c == ' ' || c == '\t' || c == '\n' || c == '\x0d' || c == '\x0b' || c == '\x0c'

/-- Python `s.strip()`. -/
def strStrip (s : String) : String :=
  String.mk (((s.data.dropWhile isSpaceChar).reverse.dropWhile isSpaceChar).reverse)

/-- Python `s.lower()`. -/
def strLower (s : String) : String := String.mk (s.data.map Char.toLower)

/-- Python `s.startswith(pre)`. -/
def strStartsWith (s pre : String) : Bool := pre.data.isPrefixOf s.data

def splitOnCharAux (c : Char) : List Char → List Char → List String
  | [], acc => [String.mk acc.reverse]
  | x :: xs, acc =>
      if x == c then String.mk acc.reverse :: splitOnCharAux c xs []
      else splitOnCharAux c xs (x :: acc)

/-- Python `s.split(',')`. -/
def splitOnComma (s : String) : List String := splitOnCharAux ',' s.data []

/-- UTF-8 encoding of one character (byte values). -/
def utf8Bytes (c : Char) : List Nat :=
  let n := c.toNat
  if n < 128 then [n]
  else if n < 2048 then [192 + n / 64, 128 + n % 64]
  else if n < 65536 then [224 + n / 4096, 128 + n / 64 % 64, 128 + n % 64]
  else [240 + n / 262144, 128 + n / 4096 % 64, 128 + n / 64 % 64, 128 + n % 64]

/-- Python `s.encode('utf-8')` as a byte-value list. -/
def strUTF8 (s : String) : List Nat := (s.data.map utf8Bytes).flatten

/-! ## Hours normalization (`main`, lines 151-199)

`main` rebuilds `item["hours"]` day by day.  The helper `_normalize_interval`
and the per-day precedence chain are translated literally. -/

def dayNames : List String :=
  ["monday", "tuesday", "wednesday", "thursday", "friday", "saturday", "sunday"]

/-- Python `d in ('monday','tuesday','wednesday','thursday','friday')`. -/
def isWeekdayName (d : String) : Bool :=
  d == "monday" || d == "tuesday" || d == "wednesday" || d == "thursday" ||
    d == "friday"

/-- Python `d in ('saturday','sunday')`. -/
def isWeekendName (d : String) : Bool := d == "saturday" || d == "sunday"

/-- The fixed always-open spellings tested by `_normalize_interval` via tuple
membership (its two extra `==` comparisons for the spaced `12:00am-11:59pm`
variants are kept separate below, as in the source). -/
def alwaysOpenSpellings : List String :=
  ["24/7", "24-7", "247", "24h", "24 hours", "open 24/7", "open 24 hours",
   "always", "all day"]

/-- `_normalize_interval` on a string: strip, lowercase, compare against the
fixed spellings; on a match return the canonical label, else the original. -/
def normalizeIntervalStr (s : String) : String :=
  let v := strLower (strStrip s)
  if alwaysOpenSpellings.contains v || v == "12:00am-11:59pm"
      || v == "12:00 am - 11:59 pm" || v == "12:00am - 11:59pm" then
    "Open 24/7"
  else s

/-- `_normalize_interval(s)`: non-strings are returned unchanged. -/
def normalize_interval : Value → Value
  | .str s => .str (normalizeIntervalStr s)
  | v => v

/-- Is this value the canonical label, i.e. Python
`isinstance(n, str) and n == 'Open 24/7'`? -/
def isOpenLabel : Value → Bool
  | .str s => s == "Open 24/7"
  | _ => false

/-- The raw value chosen for day `d` before interval normalization:
explicit day key, else matching wildcard, else `everyday`, else
`raw_hours.get(d)` (which is `None`, the day key being absent). -/
def dayRaw (rh : List (String × Value)) (d : String) : Value :=
  if dictHas rh d then dictGet rh d
  else if isWeekdayName d && dictHas rh "weekdays" then
    dictGet rh "weekdays"
  else if isWeekendName d && dictHas rh "weekends" then
    dictGet rh "weekends"
  else if dictHas rh "everyday" then dictGet rh "everyday"
  else dictGet rh d

/-- The per-day value normalization of `main`: a list drops `None` entries,
normalizes each remaining entry and collapses to the label if any entry
normalized to it; a non-empty string is normalized; anything else (None,
empty string, other markers) is preserved as-is. -/
def normDayVal (val : Value) : Value :=
  match val with
  | .list xs =>
      let normalized := (xs.filter (fun x => !x.isNull)).map normalize_interval
      if normalized.any isOpenLabel then .str "Open 24/7" else .list normalized
  | .str s => if s ≠ "" then .str (normalizeIntervalStr s) else .str s
  | v => v

/-- `main`'s hours expansion: `raw_hours = item.get('hours') or {}`; when that
is a dict, rebuild the mapping over the seven day names in order; a truthy
non-dict `hours` value is left untouched (the `isinstance` guard fails and
`item['hours']` is never reassigned). -/
def expandHours (hours : Value) : Value :=
  match Value.pyOr hours (.dict []) with
  | .dict rh => .dict (dayNames.map fun d => (d, normDayVal (dayRaw rh d)))
  | _ => hours

/-! ## Image resolution (`choose_image`, `_svg_placeholder`,
`build_banner_html`, and the logo check of `main`)

Filesystem existence (`Path(p).exists()`) is a parameter `fs`.  Python
exceptions that can escape are modelled with `Except PyErr`: calling
`.startswith` on a truthy non-string raises `AttributeError`. -/

/-- The exceptions the script can raise while processing one item. -/
inductive PyErr where
  | attributeError : PyErr
  | typeError : PyErr
deriving DecidableEq

/-- `item.get(k, dflt)`. -/
def getOr (item : List (String × Value)) (k : String) (dflt : Value) : Value :=
  (lookupKV item k).getD dflt

/-- `choose_image(item, local_key, remote_key)`: the local value if truthy,
else `remote or ""`. -/
def choose_image (item : List (String × Value)) (localKey remoteKey : String) :
    Value :=
  let l := dictGet item localKey
  if l.truthy then l else Value.pyOr (dictGet item remoteKey) (.str "")

/-- The standard base64 alphabet. -/
def b64Alphabet : String :=
  "ABCDEFGHIJKLMNOPQRSTUVWXYZabcdefghijklmnopqrstuvwxyz0123456789+/"

def b64Char (n : Nat) : Char := b64Alphabet.toList.getD n 'A'

/-- Base64 of a byte sequence, with `=` padding, as `base64.b64encode`. -/
def b64Encode : List Nat → String
  | [] => ""
  | [a] =>
      String.mk [b64Char (a / 4), b64Char (a % 4 * 16)] ++ "=="
  | [a, b] =>
      String.mk [b64Char (a / 4), b64Char (a % 4 * 16 + b / 16),
        b64Char (b % 16 * 4)] ++ "="
  | a :: b :: c :: rest =>
      String.mk [b64Char (a / 4), b64Char (a % 4 * 16 + b / 16),
        b64Char (b % 16 * 4 + c / 64), b64Char (c % 64)] ++
        b64Encode rest

/-- The SVG markup built by `_svg_placeholder`. -/
def svgMarkup (width height : Nat) (text : String) : String :=
  "<svg xmlns=\"http://www.w3.org/2000/svg\" width=\"" ++ toString width ++
    "\" height=\"" ++ toString height ++ "\" viewBox=\"0 0 " ++ toString width ++
    " " ++ toString height ++
    "\"><rect width=\"100%\" height=\"100%\" fill=\"#e9ecef\"/><text x=\"50%\" y=\"50%\" dominant-baseline=\"middle\" text-anchor=\"middle\" fill=\"#6c757d\" font-family=\"Arial, Helvetica, sans-serif\" font-size=\"24\">" ++
    text ++ "</text></svg>"

/-- `_svg_placeholder(width, height, text)`: a base64 data URI of the SVG. -/
def svg_placeholder (width height : Nat) (text : String) : String :=
  "data:image/svg+xml;base64," ++ b64Encode (strUTF8 (svgMarkup width height text))

/-- The f-string `alt` text `{item.get("name","")} banner`. -/
def bannerAlt (item : List (String × Value)) : String :=
  pyStr (getOr item "name" (.str "")) ++ " banner"

/-- The banner `<div>` markup with a given `src`. -/
def bannerImgDiv (src : String) (item : List (String × Value)) : String :=
  "<div class=\"banner\"><img src=\"" ++ src ++ "\" alt=\"" ++ bannerAlt item ++
    "\" class=\"img-fluid w-100 banner-img\"/></div>"

/-- The placeholder banner markup (caption `No banner available`). -/
def placeholderBannerHtml (item : List (String × Value)) : String :=
  bannerImgDiv (svg_placeholder 1200 300 "No banner available") item

/-- `build_banner_html(item, media_pfx, placeholder_if_missing)` with the
filesystem as `fs`.  A truthy non-string banner value raises
`AttributeError` at `.startswith`. -/
def build_banner_html (item : List (String × Value)) (mediaPfx : String)
    (placeholderIfMissing : Bool) (fs : String → Bool) : Except PyErr String :=
  let banner := choose_image item "local_banner_path" "remote_banner_url"
  if !banner.truthy then
    if !placeholderIfMissing then .ok ""
    else .ok (placeholderBannerHtml item)
  else
    match banner with
    | .str b =>
        if strStartsWith b "http" || strStartsWith b "//" then .ok (bannerImgDiv b item)
        else if !(fs b) then
          if !placeholderIfMissing then .ok ""
          else .ok (placeholderBannerHtml item)
        else .ok (bannerImgDiv (mediaPfx ++ b) item)
    | _ => .error .attributeError

/-- The homepage banner call of `main` (line 327): empty media prefix and
`placeholder_if_missing=False`. -/
def homepageBannerHtml (homepage : List (String × Value)) (fs : String → Bool) :
    Except PyErr String :=
  build_banner_html homepage "" false fs

/-- The item-page logo of `main` (lines 208-212): choose the logo, then clear
it when it is a local path whose file does not exist. -/
def resolveLogo (item : List (String × Value)) (fs : String → Bool) :
    Except PyErr Value :=
  let l := Value.pyOr (choose_image item "local_logo_path" "remote_logo_url") (.str "")
  if !l.truthy then .ok l
  else
    match l with
    | .str s =>
        if strStartsWith s "http" || strStartsWith s "//" then .ok l
        else if fs s then .ok l
        else .ok (.str "")
    | _ => .error .attributeError

/-! ## Payment methods, tags, derived URLs (`main`, lines 213-241) -/

/-- Lines 214-221: a list becomes `{str(x): True for x in pm}` (first-key
position, as for a Python dict comprehension), a dict passes through,
anything else becomes `{}`. -/
def normalizePaymentMethods (pm : Value) : Value :=
  match pm with
  | .list xs => .dict (xs.foldl (fun acc x => dictSet acc (pyStr x) (.bool true)) [])
  | .dict kvs => .dict kvs
  | _ => .dict []

/-- Lines 224-230: a string is split on commas, entries stripped, empty
entries dropped; a list passes through; anything else becomes `[]`. -/
def normalizeTags (tags : Value) : Value :=
  match tags with
  | .str s =>
      .list ((((splitOnComma s).map strStrip).filter (fun t => t ≠ "")).map .str)
  | .list xs => .list xs
  | _ => .list []

def officialUrlOfSlug (s : String) : String :=
  "https://www.rit.edu/dining/location/" ++ s

/-- Line 233: `website_url or website or (template + website_slug if
website_slug else None)`.  Concatenating a truthy non-string slug raises
`TypeError`. -/
def computeOfficialUrl (item : List (String × Value)) : Except PyErr Value :=
  let wu := dictGet item "website_url"
  if wu.truthy then .ok wu
  else
    let w := dictGet item "website"
    if w.truthy then .ok w
    else
      let ws := dictGet item "website_slug"
      if ws.truthy then
        match ws with
        | .str s => .ok (.str (officialUrlOfSlug s))
        | _ => .error .typeError
      else .ok .null

/-- Lines 238-241: `None` unless `online_ordering_id` is a present, non-null
value, in which case the f-string URL. -/
def computeOrderingUrl (item : List (String × Value)) : Value :=
  let oid := dictGet item "online_ordering_id"
  if oid.isNull then .null
  else .str ("https://ondemand.rit.edu/?SE=" ++ pyStr oid)

/-! ## ISO date parsing and epoch milliseconds

`datetime.fromisoformat` is Python standard library; it is modelled here on
the shapes the script's data uses: `YYYY-MM-DD`, optionally followed by a
one-character separator and `HH:MM` or `HH:MM:SS`, with calendar validation.
Any other string fails (raises `ValueError` in Python, `none` here). -/

def digitVal (c : Char) : Option Nat :=
  if c.isDigit then some (c.toNat - 48) else none

def parse2 (a b : Char) : Option Nat := do
  let x ← digitVal a
  let y ← digitVal b
  pure (x * 10 + y)

def isLeap (y : Nat) : Bool := (y % 4 == 0 && y % 100 != 0) || y % 400 == 0

def daysInMonth (y m : Nat) : Nat :=
  if m == 2 then (if isLeap y then 29 else 28)
  else if m == 4 || m == 6 || m == 9 || m == 11 then 30
  else 31

/-- Parse `HH:MM` or `HH:MM:SS` with range validation. -/
def parseTimeChars : List Char → Option (Nat × Nat × Nat)
  | [h1, h2, c1, m1, m2] => do
      if c1 ≠ ':' then none else
      let h ← parse2 h1 h2
      let m ← parse2 m1 m2
      if h < 24 && m < 60 then some (h, m, 0) else none
  | [h1, h2, c1, m1, m2, c2, s1, s2] => do
      if c1 ≠ ':' || c2 ≠ ':' then none else
      let h ← parse2 h1 h2
      let m ← parse2 m1 m2
      let s ← parse2 s1 s2
      if h < 24 && m < 60 && s < 60 then some (h, m, s) else none
  | _ => none

def mkDate (y1 y2 y3 y4 m1 m2 d1 d2 : Char) (t : Nat × Nat × Nat) :
    Option PyDateTime := do
  let a ← digitVal y1
  let b ← digitVal y2
  let c ← digitVal y3
  let d ← digitVal y4
  let y := a * 1000 + b * 100 + c * 10 + d
  let mo ← parse2 m1 m2
  let da ← parse2 d1 d2
  if y ≥ 1 && 1 ≤ mo && mo ≤ 12 && 1 ≤ da && da ≤ daysInMonth y mo then
    some ⟨y, mo, da, t.1, t.2.1, t.2.2⟩
  else none

/-- Model of `datetime.fromisoformat` (see section comment). -/
def fromisoformat (s : String) : Option PyDateTime :=
  match s.toList with
  | [y1, y2, y3, y4, s1, m1, m2, s2, d1, d2] =>
      if s1 = '-' && s2 = '-' then mkDate y1 y2 y3 y4 m1 m2 d1 d2 (0, 0, 0)
      else none
  | y1 :: y2 :: y3 :: y4 :: s1 :: m1 :: m2 :: s2 :: d1 :: d2 :: _sep :: rest =>
      if s1 = '-' && s2 = '-' then do
        let t ← parseTimeChars rest
        mkDate y1 y2 y3 y4 m1 m2 d1 d2 t
      else none
  | _ => none

/-- Days from 1970-01-01 to the given civil date (valid for `year ≥ 1`). -/
def daysFromCivil (y m d : Nat) : Int :=
  let y2 := if m ≤ 2 then y - 1 else y
  let era := y2 / 400
  let yoe := y2 % 400
  let mp := (m + 9) % 12
  let doy := (153 * mp + 2) / 5 + d - 1
  let doe := yoe * 365 + yoe / 4 - yoe / 100 + doy
  (era * 146097 + doe : Int) - 719468

/-- `int(dt.timestamp() * 1000)` of a naive datetime.  `timestamp()` applies
the process's local timezone; the model takes UTC as the ambient timezone
(no claim depends on the numeric offset). -/
def epochMs (t : PyDateTime) : Int :=
  daysFromCivil t.year t.month t.day * 86400000 +
    ((t.hour * 3600 + t.minute * 60 + t.second : Nat) : Int) * 1000

/-! ## Review attachment (`main`, lines 242-264) -/

/-- The per-review augmentation of lines 249-258: only a review whose `date`
is a non-empty string is touched; `date_parsed`/`date_epoch_ms` are set to
the parsed values, or both to `None` when parsing fails. -/
def augmentReview (r : List (String × Value)) : List (String × Value) :=
  match dictGet r "date" with
  | .str s =>
      if s ≠ "" then
        match fromisoformat s with
        | some t =>
            dictSet (dictSet r "date_parsed" (.dt t)) "date_epoch_ms" (.int (epochMs t))
        | none => dictSet (dictSet r "date_parsed" .null) "date_epoch_ms" .null
      else r
  | _ => r

def augmentReviewV : Value → Value
  | .dict kvs => .dict (augmentReview kvs)
  | v => v

/-- The sort key of line 260: `x.get("date_parsed") or datetime.min`. -/
def reviewSortKeyV : Value → Value
  | .dict kvs => Value.pyOr (dictGet kvs "date_parsed") (.dt dtMin)
  | _ => .dt dtMin

def keyDt : Value → Option PyDateTime
  | .dt d => some d
  | _ => none

/-- The datetime sort key of a review (total; reviews reaching the sort
always have a datetime key, see `attach_reviews`). -/
def sortKeyOf (r : Value) : PyDateTime := (keyDt (reviewSortKeyV r)).getD dtMin

/-- `sorted(..., reverse=True)` compares reviews by descending key; ties keep
input order (Python sorts are stable), which is what `List.insertionSort`
with this relation produces. -/
def reviewGE (a b : Value) : Prop := dtLe (sortKeyOf b) (sortKeyOf a) = true

instance : DecidableRel reviewGE := fun a b => by
  unfold reviewGE; infer_instance

/-- The `sorted(..., key=..., reverse=True)` call of line 260.  With at most
one review no comparison happens and `sorted` cannot raise; with two or more,
sort keys that are not all datetimes are modelled as the heterogeneous
comparison `TypeError` (caught by the enclosing `try`, yielding `[]`). -/
def sortReviewsPy (aug : List Value) : List Value :=
  if aug.length ≤ 1 then aug
  else if aug.all (fun r => (keyDt (reviewSortKeyV r)).isSome) then
    List.insertionSort reviewGE aug
  else []

/-- The body of lines 247-260 for a list of raw reviews: a non-dict entry
makes `r.get` raise (caught, yielding `[]`); otherwise augment every entry
and sort. -/
def attachReviewsList (xs : List Value) : List Value :=
  if xs.all Value.isDict then sortReviewsPy (xs.map augmentReviewV) else []

/-- Lines 242-264.  The whole block is wrapped in `try/except` returning `[]`:
a non-string unhashable slug, a non-dict entry (whose `.get` raises), or a
non-datetime sort key (heterogeneous comparison in `sorted` raises) all
produce `[]`. -/
def attach_reviews (rmap : List (String × Value)) (slug : Value) (key : String) :
    List Value :=
  match slug with
  | .list _ => []
  | .dict _ => []
  | _ =>
      let slugLookup := match slug with
        | .str s => dictGet rmap s
        | _ => .null
      let raw := Value.pyOr slugLookup (Value.pyOr (dictGet rmap key) (.list []))
      match raw with
      | .list xs => attachReviewsList xs
      | _ => []

/-! ## The per-item pipeline of `main` (lines 133-279)

Each loop iteration normalizes one item and renders one page.  Rendering and
file writing are external collaborators; the view model handed to the
template and the card collected for the index are the outputs.  The loop body
has no `try/except` of its own, so any exception it raises propagates out of
the loop. -/

/-- `_attach_epoch(field)` (lines 136-147): on a non-empty string timestamp
that parses, store `<field>_epoch_ms` and `<field>_parsed`; parse errors
leave the item unchanged. -/
def attachEpochField (item : List (String × Value)) (f : String) :
    List (String × Value) :=
  match dictGet item f with
  | .str s =>
      if s ≠ "" then
        match fromisoformat s with
        | some t =>
            dictSet (dictSet item (f ++ "_epoch_ms") (.int (epochMs t)))
              (f ++ "_parsed") (.dt t)
        | none => item
      else item
  | _ => item

/-- The card collected for the index page (lines 273-278). -/
structure Card where
  name : Value
  description : Value
  slug : Value
  logo : Value

/-- The view model of one item page: everything `main` passes to the
restaurant template, plus the card collected for the index. -/
structure ItemOut where
  slug : Value
  record : List (String × Value)
  banner_html : String
  logo_url : Value
  official_url : Value
  ordering_url : Value
  reviews : List Value
  card : Card

/-- The media prefix computed for a restaurant page (lines 203-204):
`os.path.relpath(outdir, outdir/"restaurants")` is `".."`, giving `"../"`. -/
def itemMediaPfx : String := "../"

/-- One iteration of the loop over `data.items()` (lines 133-279), up to the
external render/write calls.  Faults that the loop body can raise surface as
`Except.error`: a non-dict item record (`.get` on it raises
`AttributeError`), a truthy non-string banner or logo value, a truthy
non-string `website_slug`. -/
def processItem (fs : String → Bool) (rmap : List (String × Value))
    (key : String) (itemV : Value) : Except PyErr ItemOut := do
  match itemV with
  | .dict item0 =>
      let slug := Value.pyOr (dictGet item0 "slug") (.str key)
      let item1 := attachEpochField (attachEpochField item0 "created_at") "updated_at"
      let item2 := dictSet item1 "hours" (expandHours (dictGet item1 "hours"))
      let banner ← build_banner_html item2 itemMediaPfx true fs
      let logo ← resolveLogo item2 fs
      let item3 := dictSet item2 "payment_methods"
        (normalizePaymentMethods (dictGet item2 "payment_methods"))
      let item4 := dictSet item3 "tags" (normalizeTags (dictGet item3 "tags"))
      let official ← computeOfficialUrl item4
      let ordering := computeOrderingUrl item4
      let reviews := attach_reviews rmap slug key
      let card : Card :=
        { name := getOr item4 "name" (.str "Unnamed")
          description := getOr item4 "description" (.str "")
          slug := slug
          logo := Value.pyOr logo (Value.pyOr (dictGet item4 "local_logo_path")
            (Value.pyOr (dictGet item4 "remote_logo_url") (.str ""))) }
      pure { slug := slug, record := item4, banner_html := banner,
             logo_url := logo, official_url := official,
             ordering_url := ordering, reviews := reviews, card := card }
  | _ => .error .attributeError

/-- The whole loop over the data mapping: the pages emitted before the first
fault, and the fault if one occurred.  An exception in one iteration aborts
the loop (there is no per-item handler), so no later item is processed. -/
def processAll (fs : String → Bool) (rmap : List (String × Value)) :
    List (String × Value) → List ItemOut × Option PyErr
  | [] => ([], none)
  | (k, v) :: rest =>
      match processItem fs rmap k v with
      | .error e => ([], some e)
      | .ok out =>
          let r := processAll fs rmap rest
          (out :: r.1, r.2)

/-- The card image markup of the restaurants index (lines 290-297): a remote
logo is used as-is, any other truthy logo value gets the cards media prefix
(`"../"`, lines 286-287); a falsy logo yields no markup.  `.startswith` on a
truthy non-string raises. -/
def buildCardImg (c : Card) (cardsMediaPfx : String) : Except PyErr String :=
  if c.logo.truthy then
    match c.logo with
    | .str s =>
        if strStartsWith s "http" || strStartsWith s "//" then
          .ok ("<img src=\"" ++ s ++ "\" class=\"card-img-top card-media-img\" alt=\"" ++
            pyStr c.name ++ " logo\">")
        else
          .ok ("<img src=\"" ++ cardsMediaPfx ++ s ++ "\" class=\"card-img-top card-media-img\" alt=\"" ++
            pyStr c.name ++ " logo\">")
    | _ => .error .attributeError
  else .ok ""

/-- The key list of a dict value (used to state the hours invariant). -/
def dictKeysOf : Value → List String
  | .dict kvs => kvs.map Prod.fst
  | _ => []

/-- Field projection on a dict value (used to state review properties). -/
def valueGet (v : Value) (k : String) : Value :=
  match v with
  | .dict kvs => dictGet kvs k
  | _ => .null

/-- A banner/logo/slug field that cannot make the script raise at
`.startswith` or string concatenation: a string, or any falsy value. -/
def strOrFalsy (v : Value) : Bool := v.isStr || !v.truthy

/-- An item record that `main`'s loop body processes without raising: a dict
whose image fields and `website_slug` are strings or falsy. -/
def wellShapedItem : Value → Bool
  | .dict it =>
      strOrFalsy (dictGet it "local_banner_path") &&
      strOrFalsy (dictGet it "remote_banner_url") &&
      strOrFalsy (dictGet it "local_logo_path") &&
      strOrFalsy (dictGet it "remote_logo_url") &&
      strOrFalsy (dictGet it "website_slug")
  | _ => false

/-! ## Supporting lemmas -/

theorem lookupKV_dictSet_self (kvs : List (String × Value)) (k : String)
    (v : Value) : lookupKV (dictSet kvs k v) k = some v := by
  induction kvs with
  | nil => simp [dictSet, lookupKV]
  | cons p rest ih =>
      obtain ⟨k2, w⟩ := p
      by_cases h : k2 = k
      · simp [dictSet, lookupKV, h]
      · simp [dictSet, lookupKV, h, ih]

theorem lookupKV_dictSet_ne (kvs : List (String × Value)) (k k2 : String)
    (v : Value) (h : k ≠ k2) :
    lookupKV (dictSet kvs k v) k2 = lookupKV kvs k2 := by
  induction kvs with
  | nil => simp [dictSet, lookupKV, h]
  | cons p rest ih =>
      obtain ⟨k3, w⟩ := p
      by_cases h3 : k3 = k
      · subst h3
        simp [dictSet, lookupKV, h]
      · simp [dictSet, lookupKV, h3, ih]

theorem dictGet_dictSet_self (kvs : List (String × Value)) (k : String)
    (v : Value) : dictGet (dictSet kvs k v) k = v := by
  simp [dictGet, lookupKV_dictSet_self]

theorem dictGet_dictSet_ne (kvs : List (String × Value)) (k k2 : String)
    (v : Value) (h : k ≠ k2) :
    dictGet (dictSet kvs k v) k2 = dictGet kvs k2 := by
  simp [dictGet, lookupKV_dictSet_ne _ _ _ _ h]

/-- `attachEpochField` only writes the `_epoch_ms`/`_parsed` keys. -/
theorem dictGet_attachEpochField_ne (item : List (String × Value)) (f k : String)
    (h1 : f ++ "_epoch_ms" ≠ k) (h2 : f ++ "_parsed" ≠ k) :
    dictGet (attachEpochField item f) k = dictGet item k := by
  unfold attachEpochField
  cases hv : dictGet item f with
  | str s =>
      by_cases hs : s = ""
      · simp [hs]
      · cases hp : fromisoformat s with
        | some t =>
            simp [hs, hp, dictGet_dictSet_ne _ _ _ _ h1,
              dictGet_dictSet_ne _ _ _ _ h2]
        | none => simp [hs, hp]
  | null => simp
  | bool b => simp
  | int n => simp
  | list xs => simp
  | dict kvs => simp
  | dt d => simp

theorem dtLe_refl (a : PyDateTime) : dtLe a a = true := by
  simp [dtLe]

theorem dtLe_total (a b : PyDateTime) : dtLe a b = true ∨ dtLe b a = true := by
  simp only [dtLe, decide_eq_true_eq]
  omega

theorem dtLe_trans (a b c : PyDateTime) (h1 : dtLe a b = true)
    (h2 : dtLe b c = true) : dtLe a c = true := by
  simp only [dtLe, decide_eq_true_eq] at h1 h2 ⊢
  omega

instance : IsTotal Value reviewGE :=
  ⟨fun a b => by
    unfold reviewGE
    rcases dtLe_total (sortKeyOf a) (sortKeyOf b) with h | h
    · exact Or.inr h
    · exact Or.inl h⟩

instance : IsTrans Value reviewGE :=
  ⟨fun a b c h1 h2 => dtLe_trans _ _ _ h2 h1⟩

theorem expandHours_dict (rh : List (String × Value)) :
    expandHours (.dict rh) =
      .dict (dayNames.map fun d => (d, normDayVal (dayRaw rh d))) := by
  cases rh with
  | nil => rfl
  | cons p rest => rfl

theorem expandHours_falsy (hours : Value) (h : hours.truthy = false) :
    expandHours hours =
      .dict (dayNames.map fun d => (d, normDayVal (dayRaw [] d))) := by
  unfold expandHours Value.pyOr
  rw [h]
  simp

theorem lookupKV_mapNames (names : List String) (f : String → Value)
    (d : String) (h : d ∈ names) :
    lookupKV (names.map fun n => (n, f n)) d = some (f d) := by
  induction names with
  | nil => cases h
  | cons n rest ih =>
      simp only [List.map_cons, lookupKV]
      by_cases he : n = d
      · subst he; simp
      · have hr : d ∈ rest := by
          rcases List.mem_cons.mp h with h2 | h2
          · exact absurd h2.symm he
          · exact h2
        simp [he, ih hr]

theorem mapNames_keys (names : List String) (f : String → Value) :
    (names.map fun n => (n, f n)).map Prod.fst = names := by
  induction names with
  | nil => rfl
  | cons n rest ih => simp [ih]

/-- The per-day normalization either produces a string or a list, or leaves
the raw value untouched. -/
theorem normDayVal_shape (val : Value) :
    (normDayVal val).isStr = true ∨ (normDayVal val).isList = true ∨
      normDayVal val = val := by
  cases val with
  | str s =>
      by_cases hs : s = "" <;> simp [normDayVal, hs, Value.isStr]
  | list xs =>
      by_cases ha :
          ((xs.filter fun x => !x.isNull).map normalize_interval).any isOpenLabel
      · simp [normDayVal, ha, Value.isStr]
      · simp only [normDayVal]
        rw [if_neg (by simpa using ha)]
        simp [Value.isList]
  | null => simp [normDayVal]
  | bool b => simp [normDayVal]
  | int n => simp [normDayVal]
  | dict kvs => simp [normDayVal]
  | dt t => simp [normDayVal]

theorem pyOr_isStr (v : Value) (h : v.isStr = true) :
    (Value.pyOr v (.str "")).isStr = true := by
  unfold Value.pyOr
  by_cases ht : v.truthy = true
  · simpa [ht] using h
  · simp only [ht, if_false, Bool.false_eq_true]
    simp [Value.isStr]

theorem choose_image_isStr (item : List (String × Value)) (lk rk : String)
    (h1 : strOrFalsy (dictGet item lk) = true)
    (h2 : strOrFalsy (dictGet item rk) = true) :
    (choose_image item lk rk).isStr = true := by
  unfold choose_image
  unfold strOrFalsy at h1 h2
  by_cases hl : (dictGet item lk).truthy = true
  · simp only [hl, if_true]
    simp [hl] at h1
    exact h1
  · simp only [hl]
    unfold Value.pyOr
    by_cases hr : (dictGet item rk).truthy = true
    · simp only [hr, if_true, if_false]
      simp [hr] at h2
      simpa [hr] using h2
    · simp [hl, hr, Value.isStr]

theorem build_banner_html_ok (item : List (String × Value)) (mediaPfx : String)
    (ph : Bool) (fs : String → Bool)
    (h : (choose_image item "local_banner_path" "remote_banner_url").isStr = true) :
    ∃ s, build_banner_html item mediaPfx ph fs = .ok s := by
  unfold build_banner_html
  cases hc : choose_image item "local_banner_path" "remote_banner_url" with
  | str b =>
      by_cases ht : (Value.str b).truthy = true
      · simp only [ht]
        split_ifs <;> exact ⟨_, rfl⟩
      · simp only [Bool.not_eq_true] at ht
        simp only [ht]
        split_ifs <;> exact ⟨_, rfl⟩
  | null => rw [hc] at h; simp [Value.isStr] at h
  | bool b => rw [hc] at h; simp [Value.isStr] at h
  | int n => rw [hc] at h; simp [Value.isStr] at h
  | list xs => rw [hc] at h; simp [Value.isStr] at h
  | dict kvs => rw [hc] at h; simp [Value.isStr] at h
  | dt t => rw [hc] at h; simp [Value.isStr] at h

theorem resolveLogo_ok (item : List (String × Value)) (fs : String → Bool)
    (h : (choose_image item "local_logo_path" "remote_logo_url").isStr = true) :
    ∃ v, resolveLogo item fs = .ok v := by
  unfold resolveLogo
  have h2 := pyOr_isStr _ h
  cases hc : Value.pyOr (choose_image item "local_logo_path" "remote_logo_url")
      (.str "") with
  | str b => dsimp only; split_ifs <;> exact ⟨_, rfl⟩
  | null => rw [hc] at h2; simp [Value.isStr] at h2
  | bool b => rw [hc] at h2; simp [Value.isStr] at h2
  | int n => rw [hc] at h2; simp [Value.isStr] at h2
  | list xs => rw [hc] at h2; simp [Value.isStr] at h2
  | dict kvs => rw [hc] at h2; simp [Value.isStr] at h2
  | dt t => rw [hc] at h2; simp [Value.isStr] at h2

theorem computeOfficialUrl_ok (item : List (String × Value))
    (h : strOrFalsy (dictGet item "website_slug") = true) :
    ∃ v, computeOfficialUrl item = .ok v := by
  unfold computeOfficialUrl
  dsimp only
  split_ifs with h1 h2 h3
  · exact ⟨_, rfl⟩
  · exact ⟨_, rfl⟩
  · unfold strOrFalsy at h
    rw [h3] at h
    simp only [Bool.not_true, Bool.or_false] at h
    cases hc : dictGet item "website_slug" with
    | str s => exact ⟨_, rfl⟩
    | null => rw [hc] at h; simp [Value.isStr] at h
    | bool b => rw [hc] at h; simp [Value.isStr] at h
    | int n => rw [hc] at h; simp [Value.isStr] at h
    | list xs => rw [hc] at h; simp [Value.isStr] at h
    | dict kvs => rw [hc] at h; simp [Value.isStr] at h
    | dt t => rw [hc] at h; simp [Value.isStr] at h
  · exact ⟨_, rfl⟩

theorem exceptBindOk {α β : Type} (a : α) (f : α → Except PyErr β) :
    (Except.ok a >>= f) = f a := rfl

/-- A well-shaped item record goes through the whole loop body without an
exception. -/
theorem processItem_ok (fs : String → Bool) (rmap : List (String × Value))
    (k : String) (v : Value) (h : wellShapedItem v = true) :
    ∃ out, processItem fs rmap k v = .ok out := by
  cases v with
  | dict item0 =>
      unfold wellShapedItem at h
      simp only [Bool.and_eq_true] at h
      obtain ⟨⟨⟨⟨hlb, hrb⟩, hll⟩, hrl⟩, hws⟩ := h
      have hpres : ∀ key : String,
          ("created_at" ++ "_epoch_ms" ≠ key) → ("created_at" ++ "_parsed" ≠ key) →
          ("updated_at" ++ "_epoch_ms" ≠ key) → ("updated_at" ++ "_parsed" ≠ key) →
          ("hours" ≠ key) →
          dictGet (dictSet
            (attachEpochField (attachEpochField item0 "created_at") "updated_at")
            "hours"
            (expandHours (dictGet
              (attachEpochField (attachEpochField item0 "created_at") "updated_at")
              "hours"))) key = dictGet item0 key := by
        intro key h1 h2 h3 h4 h5
        rw [dictGet_dictSet_ne _ _ _ _ h5,
          dictGet_attachEpochField_ne _ _ _ h3 h4,
          dictGet_attachEpochField_ne _ _ _ h1 h2]
      obtain ⟨bs, hb⟩ := build_banner_html_ok
        (dictSet (attachEpochField (attachEpochField item0 "created_at") "updated_at")
          "hours" (expandHours (dictGet
            (attachEpochField (attachEpochField item0 "created_at") "updated_at")
            "hours")))
        itemMediaPfx true fs
        (choose_image_isStr _ _ _
          (by rw [hpres _ (by decide) (by decide) (by decide) (by decide) (by decide)]
              exact hlb)
          (by rw [hpres _ (by decide) (by decide) (by decide) (by decide) (by decide)]
              exact hrb))
      obtain ⟨lv, hl⟩ := resolveLogo_ok
        (dictSet (attachEpochField (attachEpochField item0 "created_at") "updated_at")
          "hours" (expandHours (dictGet
            (attachEpochField (attachEpochField item0 "created_at") "updated_at")
            "hours")))
        fs
        (choose_image_isStr _ _ _
          (by rw [hpres _ (by decide) (by decide) (by decide) (by decide) (by decide)]
              exact hll)
          (by rw [hpres _ (by decide) (by decide) (by decide) (by decide) (by decide)]
              exact hrl))
      obtain ⟨ov, ho⟩ := computeOfficialUrl_ok
        (dictSet (dictSet (dictSet
            (attachEpochField (attachEpochField item0 "created_at") "updated_at")
            "hours" (expandHours (dictGet
              (attachEpochField (attachEpochField item0 "created_at") "updated_at")
              "hours")))
          "payment_methods" (normalizePaymentMethods (dictGet
            (dictSet (attachEpochField (attachEpochField item0 "created_at") "updated_at")
              "hours" (expandHours (dictGet
                (attachEpochField (attachEpochField item0 "created_at") "updated_at")
                "hours")))
            "payment_methods")))
          "tags" (normalizeTags (dictGet
            (dictSet (dictSet
                (attachEpochField (attachEpochField item0 "created_at") "updated_at")
                "hours" (expandHours (dictGet
                  (attachEpochField (attachEpochField item0 "created_at") "updated_at")
                  "hours")))
              "payment_methods" (normalizePaymentMethods (dictGet
                (dictSet (attachEpochField (attachEpochField item0 "created_at") "updated_at")
                  "hours" (expandHours (dictGet
                    (attachEpochField (attachEpochField item0 "created_at") "updated_at")
                    "hours")))
                "payment_methods")))
            "tags")))
        (by rw [dictGet_dictSet_ne _ _ _ _ (by decide),
              dictGet_dictSet_ne _ _ _ _ (by decide),
              hpres _ (by decide) (by decide) (by decide) (by decide) (by decide)]
            exact hws)
      cases hr : processItem fs rmap k (.dict item0) with
      | ok out => exact ⟨out, rfl⟩
      | error e =>
          simp only [processItem] at hr
          rw [hb] at hr
          simp only [exceptBindOk] at hr
          rw [hl] at hr
          simp only [exceptBindOk] at hr
          rw [ho] at hr
          simp only [exceptBindOk] at hr
          exact Except.noConfusion hr
  | null => simp [wellShapedItem] at h
  | bool b => simp [wellShapedItem] at h
  | int n => simp [wellShapedItem] at h
  | str s => simp [wellShapedItem] at h
  | list xs => simp [wellShapedItem] at h
  | dt t => simp [wellShapedItem] at h

/-- When every item is well-shaped the loop finishes without a fault and
emits one page per item. -/
theorem processAll_ok (fs : String → Bool) (rmap : List (String × Value))
    (entries : List (String × Value))
    (h : ∀ p ∈ entries, wellShapedItem p.2 = true) :
    (processAll fs rmap entries).2 = none ∧
      (processAll fs rmap entries).1.length = entries.length := by
  induction entries with
  | nil => simp [processAll]
  | cons p rest ih =>
      obtain ⟨k, v⟩ := p
      obtain ⟨out, hout⟩ := processItem_ok fs rmap k v (h _ (List.mem_cons_self _ _))
      have ihr := ih fun q hq => h q (List.mem_cons_of_mem _ hq)
      simp [processAll, hout, ihr.1, ihr.2]

/-! ## Claims -/

/-- C1, counterexample: an item whose raw `hours` field is a truthy
non-mapping value — here the string `"9am-5pm"` — is left untouched by
normalization, so the normalized `hours` value is not a mapping with the
seven canonical day keys at all, contradicting the claim's "including when
the raw hours field is of an unexpected (non-mapping) type". -/
theorem hours_seven_keys_cex :
    expandHours (Value.str "9am-5pm") = Value.str "9am-5pm" ∧
      (expandHours (Value.str "9am-5pm")).isDict = false :=
  ⟨rfl, rfl⟩

/-- C1 (amended): whenever the raw `hours` field is absent/falsy or is a
mapping, the normalized `hours` value is a mapping with exactly the seven
canonical day keys in order, each day mapped to null, a string, a sequence,
or (for any other raw marker type) the raw per-day value preserved
unchanged; a truthy non-mapping raw `hours` value is left unnormalized. -/
theorem hours_seven_keys_amended (hours : Value)
    (h : hours.truthy = false ∨ hours.isDict = true) :
    ∃ rh kvs, expandHours hours = Value.dict kvs ∧
      kvs.map Prod.fst = dayNames ∧
      ∀ p ∈ kvs, p.2.isNull = true ∨ p.2.isStr = true ∨ p.2.isList = true ∨
        p.2 = dayRaw rh p.1 := by
  have key : ∀ rh : List (String × Value),
      ∀ p ∈ (dayNames.map fun d => (d, normDayVal (dayRaw rh d))),
        p.2.isNull = true ∨ p.2.isStr = true ∨ p.2.isList = true ∨
          p.2 = dayRaw rh p.1 := by
    intro rh p hp
    obtain ⟨d, hd, rfl⟩ := List.mem_map.mp hp
    rcases normDayVal_shape (dayRaw rh d) with h1 | h1 | h1
    · exact Or.inr (Or.inl h1)
    · exact Or.inr (Or.inr (Or.inl h1))
    · exact Or.inr (Or.inr (Or.inr h1))
  rcases h with hf | hd
  · exact ⟨[], _, expandHours_falsy hours hf, mapNames_keys _ _, key []⟩
  · cases hours with
    | dict rh => exact ⟨rh, _, expandHours_dict rh, mapNames_keys _ _, key rh⟩
    | null => simp [Value.isDict] at hd
    | bool b => simp [Value.isDict] at hd
    | int n => simp [Value.isDict] at hd
    | str s => simp [Value.isDict] at hd
    | list xs => simp [Value.isDict] at hd
    | dt t => simp [Value.isDict] at hd

/-- C1 witness: the amended theorem applied to an absent (`None`) hours
field. -/
theorem hours_seven_keys_witness :
    (Value.null.truthy = false ∨ Value.null.isDict = true) ∧
      (∃ rh kvs, expandHours Value.null = Value.dict kvs ∧
        kvs.map Prod.fst = dayNames ∧
        ∀ p ∈ kvs, p.2.isNull = true ∨ p.2.isStr = true ∨ p.2.isList = true ∨
          p.2 = dayRaw rh p.1) :=
  ⟨Or.inl rfl, hours_seven_keys_amended Value.null (Or.inl rfl)⟩

theorem dictGet_of_not_has (rh : List (String × Value)) (k : String)
    (h : dictHas rh k = false) : dictGet rh k = Value.null := by
  unfold dictHas at h
  unfold dictGet
  cases hl : lookupKV rh k with
  | none => rfl
  | some v => rw [hl] at h; simp at h

theorem weekend_not_weekday (d : String) (h : isWeekendName d = true) :
    isWeekdayName d = false := by
  simp only [isWeekendName, Bool.or_eq_true, beq_iff_eq] at h
  rcases h with rfl | rfl <;> rfl

/-- C2: hours expansion resolves each day with the precedence
explicit day key > matching wildcard > `everyday` > absent, and on
`{"weekdays": "9am-5pm", "saturday": null}` gives Monday-Friday `"9am-5pm"`,
Saturday the explicit `None` (closed) and Sunday `None` (absent). -/
theorem hours_precedence :
    (∀ (rh : List (String × Value)) (d : String), d ∈ dayNames →
      ∃ kvs, expandHours (Value.dict rh) = Value.dict kvs ∧
        lookupKV kvs d = some (normDayVal (dayRaw rh d)) ∧
        (dictHas rh d = true → dayRaw rh d = dictGet rh d) ∧
        (dictHas rh d = false → isWeekdayName d = true →
          dictHas rh "weekdays" = true → dayRaw rh d = dictGet rh "weekdays") ∧
        (dictHas rh d = false → isWeekendName d = true →
          dictHas rh "weekends" = true → dayRaw rh d = dictGet rh "weekends") ∧
        (dictHas rh d = false →
          (isWeekdayName d = false ∨ dictHas rh "weekdays" = false) →
          (isWeekendName d = false ∨ dictHas rh "weekends" = false) →
          dictHas rh "everyday" = true → dayRaw rh d = dictGet rh "everyday") ∧
        (dictHas rh d = false → dictHas rh "weekdays" = false →
          dictHas rh "weekends" = false → dictHas rh "everyday" = false →
          dayRaw rh d = Value.null)) ∧
    expandHours (Value.dict [("weekdays", Value.str "9am-5pm"), ("saturday", Value.null)]) =
      Value.dict [("monday", Value.str "9am-5pm"), ("tuesday", Value.str "9am-5pm"),
        ("wednesday", Value.str "9am-5pm"), ("thursday", Value.str "9am-5pm"),
        ("friday", Value.str "9am-5pm"), ("saturday", Value.null),
        ("sunday", Value.null)] := by
  constructor
  · intro rh d hd
    refine ⟨_, expandHours_dict rh, lookupKV_mapNames _ _ _ hd, ?_, ?_, ?_, ?_, ?_⟩
    · intro h1
      simp [dayRaw, h1]
    · intro h1 h2 h3
      simp [dayRaw, h1, h2, h3]
    · intro h1 h2 h3
      simp [dayRaw, h1, h2, h3, weekend_not_weekday d h2]
    · intro h1 h2 h3 h4
      have hw : (isWeekdayName d && dictHas rh "weekdays") = false := by
        rcases h2 with h2 | h2 <;> simp [h2]
      have he : (isWeekendName d && dictHas rh "weekends") = false := by
        rcases h3 with h3 | h3 <;> simp [h3]
      simp [dayRaw, h1, hw, he, h4]
    · intro h1 h2 h3 h4
      simp [dayRaw, h1, h2, h3, h4, dictGet_of_not_has rh d h1]
  · rfl

/-- C2 witness: the precedence part applied concretely — for the hours
mapping of the claim's scenario, Monday resolves through the `weekdays`
wildcard. -/
theorem hours_precedence_witness :
    "monday" ∈ dayNames ∧
      ∃ kvs, expandHours (Value.dict [("weekdays", Value.str "9am-5pm"),
          ("saturday", Value.null)]) = Value.dict kvs ∧
        lookupKV kvs "monday" =
          some (normDayVal (dayRaw [("weekdays", Value.str "9am-5pm"),
            ("saturday", Value.null)] "monday")) ∧
        (dictHas [("weekdays", Value.str "9am-5pm"), ("saturday", Value.null)]
            "monday" = true →
          dayRaw [("weekdays", Value.str "9am-5pm"), ("saturday", Value.null)]
              "monday" =
            dictGet [("weekdays", Value.str "9am-5pm"), ("saturday", Value.null)]
              "monday") ∧
        (dictHas [("weekdays", Value.str "9am-5pm"), ("saturday", Value.null)]
            "monday" = false →
          isWeekdayName "monday" = true →
          dictHas [("weekdays", Value.str "9am-5pm"), ("saturday", Value.null)]
              "weekdays" = true →
          dayRaw [("weekdays", Value.str "9am-5pm"), ("saturday", Value.null)]
              "monday" =
            dictGet [("weekdays", Value.str "9am-5pm"), ("saturday", Value.null)]
              "weekdays") ∧
        (dictHas [("weekdays", Value.str "9am-5pm"), ("saturday", Value.null)]
            "monday" = false →
          isWeekendName "monday" = true →
          dictHas [("weekdays", Value.str "9am-5pm"), ("saturday", Value.null)]
              "weekends" = true →
          dayRaw [("weekdays", Value.str "9am-5pm"), ("saturday", Value.null)]
              "monday" =
            dictGet [("weekdays", Value.str "9am-5pm"), ("saturday", Value.null)]
              "weekends") ∧
        (dictHas [("weekdays", Value.str "9am-5pm"), ("saturday", Value.null)]
            "monday" = false →
          (isWeekdayName "monday" = false ∨
            dictHas [("weekdays", Value.str "9am-5pm"), ("saturday", Value.null)]
                "weekdays" = false) →
          (isWeekendName "monday" = false ∨
            dictHas [("weekdays", Value.str "9am-5pm"), ("saturday", Value.null)]
                "weekends" = false) →
          dictHas [("weekdays", Value.str "9am-5pm"), ("saturday", Value.null)]
              "everyday" = true →
          dayRaw [("weekdays", Value.str "9am-5pm"), ("saturday", Value.null)]
              "monday" =
            dictGet [("weekdays", Value.str "9am-5pm"), ("saturday", Value.null)]
              "everyday") ∧
        (dictHas [("weekdays", Value.str "9am-5pm"), ("saturday", Value.null)]
            "monday" = false →
          dictHas [("weekdays", Value.str "9am-5pm"), ("saturday", Value.null)]
              "weekdays" = false →
          dictHas [("weekdays", Value.str "9am-5pm"), ("saturday", Value.null)]
              "weekends" = false →
          dictHas [("weekdays", Value.str "9am-5pm"), ("saturday", Value.null)]
              "everyday" = false →
          dayRaw [("weekdays", Value.str "9am-5pm"), ("saturday", Value.null)]
              "monday" = Value.null) :=
  ⟨by decide, hours_precedence.1 _ "monday" (by decide)⟩

/-- The membership test of `_normalize_interval` is equivalent to membership
in the twelve-spelling list (the tuple plus the three explicit `==`
comparisons). -/
theorem alwaysOpen_cond_iff (v : String) :
    (alwaysOpenSpellings.contains v || v == "12:00am-11:59pm"
        || v == "12:00 am - 11:59 pm" || v == "12:00am - 11:59pm") = true ↔
      v ∈ ["24/7", "24-7", "247", "24h", "24 hours", "open 24/7",
        "open 24 hours", "always", "all day", "12:00am-11:59pm",
        "12:00 am - 11:59 pm", "12:00am - 11:59pm"] := by
  simp [alwaysOpenSpellings]
  tauto

/-- C3: a string whose stripped, lowercased form is one of the fixed
always-open spellings normalizes to the label `"Open 24/7"`, any other
string is returned unchanged; a day given as a list normalizes each non-null
entry independently and collapses to the single label when any normalized
entry equals it, else stays a sequence — in particular
`["9am-12pm", "24/7"]` collapses. -/
theorem interval_normalization :
    (∀ s : String,
      (strLower (strStrip s) ∈ ["24/7", "24-7", "247", "24h", "24 hours",
          "open 24/7", "open 24 hours", "always", "all day", "12:00am-11:59pm",
          "12:00 am - 11:59 pm", "12:00am - 11:59pm"] →
        normalizeIntervalStr s = "Open 24/7") ∧
      (strLower (strStrip s) ∉ ["24/7", "24-7", "247", "24h", "24 hours",
          "open 24/7", "open 24 hours", "always", "all day", "12:00am-11:59pm",
          "12:00 am - 11:59 pm", "12:00am - 11:59pm"] →
        normalizeIntervalStr s = s)) ∧
    (∀ xs : List Value,
      ((∃ x ∈ xs, x.isNull = false ∧ normalize_interval x = Value.str "Open 24/7") →
        normDayVal (Value.list xs) = Value.str "Open 24/7") ∧
      ((∀ x ∈ xs, normalize_interval x ≠ Value.str "Open 24/7") →
        normDayVal (Value.list xs) =
          Value.list ((xs.filter fun x => !x.isNull).map normalize_interval))) ∧
    normDayVal (Value.list [Value.str "9am-12pm", Value.str "24/7"]) =
      Value.str "Open 24/7" := by
  refine ⟨fun s => ⟨fun h => ?_, fun h => ?_⟩, fun xs => ⟨fun h => ?_, fun h => ?_⟩, rfl⟩
  · unfold normalizeIntervalStr
    rw [if_pos ((alwaysOpen_cond_iff _).mpr h)]
  · unfold normalizeIntervalStr
    rw [if_neg (fun hc => h ((alwaysOpen_cond_iff _).mp hc))]
  · obtain ⟨x, hx, hnn, hlbl⟩ := h
    have hmem : Value.str "Open 24/7" ∈
        (xs.filter fun x => !x.isNull).map normalize_interval := by
      refine List.mem_map.mpr ⟨x, List.mem_filter.mpr ⟨hx, by simp [hnn]⟩, hlbl⟩
    have hany : ((xs.filter fun x => !x.isNull).map normalize_interval).any
        isOpenLabel = true := by
      refine List.any_eq_true.mpr ⟨_, hmem, ?_⟩
      simp [isOpenLabel]
    simp [normDayVal, hany]
  · have hany : ((xs.filter fun x => !x.isNull).map normalize_interval).any
        isOpenLabel = false := by
      rw [List.any_eq_false]
      intro v hv
      obtain ⟨x, hx, rfl⟩ := List.mem_map.mp hv
      have hne := h x (List.mem_filter.mp hx).1
      intro hlbl
      apply hne
      cases hni : normalize_interval x with
      | str s2 =>
          rw [hni] at hlbl
          simp [isOpenLabel] at hlbl
          rw [hlbl]
      | null => rw [hni] at hlbl; simp [isOpenLabel] at hlbl
      | bool b => rw [hni] at hlbl; simp [isOpenLabel] at hlbl
      | int n => rw [hni] at hlbl; simp [isOpenLabel] at hlbl
      | list ys => rw [hni] at hlbl; simp [isOpenLabel] at hlbl
      | dict kvs => rw [hni] at hlbl; simp [isOpenLabel] at hlbl
      | dt t => rw [hni] at hlbl; simp [isOpenLabel] at hlbl
    simp [normDayVal, hany]

/-- C3 witness: the string characterization applied to `" 24 HOURS "`, whose
stripped lowercase form is in the spelling list. -/
theorem interval_normalization_witness :
    strLower (strStrip " 24 HOURS ") ∈ ["24/7", "24-7", "247", "24h",
        "24 hours", "open 24/7", "open 24 hours", "always", "all day",
        "12:00am-11:59pm", "12:00 am - 11:59 pm", "12:00am - 11:59pm"] ∧
      normalizeIntervalStr " 24 HOURS " = "Open 24/7" :=
  ⟨by decide, (interval_normalization.1 " 24 HOURS ").1 (by decide)⟩

/-- C4: banner resolution trichotomy.  With the chosen banner (local path
preferred over remote URL): a value starting with `http` or `//` is
referenced as-is with no prefix; a local path whose file exists is referenced
with the media prefix prepended; a local path whose file does not exist, or
no banner at all, yields the `"No banner available"` placeholder markup —
or the empty string when the caller passes `placeholder_if_missing=False`. -/
theorem banner_trichotomy (item : List (String × Value)) (pfx : String)
    (ph : Bool) (fs : String → Bool) :
    (∀ b : String,
      choose_image item "local_banner_path" "remote_banner_url" = Value.str b →
      b ≠ "" → (strStartsWith b "http" = true ∨ strStartsWith b "//" = true) →
      build_banner_html item pfx ph fs = .ok (bannerImgDiv b item)) ∧
    (∀ b : String,
      choose_image item "local_banner_path" "remote_banner_url" = Value.str b →
      b ≠ "" → strStartsWith b "http" = false → strStartsWith b "//" = false →
      fs b = true →
      build_banner_html item pfx ph fs = .ok (bannerImgDiv (pfx ++ b) item)) ∧
    (∀ b : String,
      choose_image item "local_banner_path" "remote_banner_url" = Value.str b →
      b ≠ "" → strStartsWith b "http" = false → strStartsWith b "//" = false →
      fs b = false →
      build_banner_html item pfx ph fs =
        .ok (if ph then placeholderBannerHtml item else "")) ∧
    ((choose_image item "local_banner_path" "remote_banner_url").truthy = false →
      build_banner_html item pfx ph fs =
        .ok (if ph then placeholderBannerHtml item else "")) := by
  refine ⟨fun b hc hne hsw => ?_, fun b hc hne h1 h2 hfs => ?_,
    fun b hc hne h1 h2 hfs => ?_, fun hf => ?_⟩
  · unfold build_banner_html
    rw [hc]
    dsimp only
    have ht : (Value.str b).truthy = true := by simp [Value.truthy, hne]
    rcases hsw with h | h <;> simp [ht, h]
  · unfold build_banner_html
    rw [hc]
    dsimp only
    have ht : (Value.str b).truthy = true := by simp [Value.truthy, hne]
    simp [ht, h1, h2, hfs]
  · unfold build_banner_html
    rw [hc]
    dsimp only
    have ht : (Value.str b).truthy = true := by simp [Value.truthy, hne]
    cases ph <;> simp [ht, h1, h2, hfs]
  · unfold build_banner_html
    dsimp only
    cases ph <;> simp [hf]

/-- C4 witness: the remote branch applied to an item with only a remote
banner URL. -/
theorem banner_trichotomy_witness :
    choose_image [("remote_banner_url", Value.str "http://x/b.png")]
        "local_banner_path" "remote_banner_url" =
      Value.str "http://x/b.png" ∧
    ("http://x/b.png" : String) ≠ "" ∧
    (strStartsWith "http://x/b.png" "http" = true ∨
      strStartsWith "http://x/b.png" "//" = true) ∧
    build_banner_html [("remote_banner_url", Value.str "http://x/b.png")]
        "../" true (fun _ => false) =
      .ok (bannerImgDiv "http://x/b.png"
        [("remote_banner_url", Value.str "http://x/b.png")]) :=
  ⟨rfl, by decide, Or.inl rfl,
    (banner_trichotomy [("remote_banner_url", Value.str "http://x/b.png")]
        "../" true (fun _ => false)).1 "http://x/b.png" rfl (by decide)
      (Or.inl rfl)⟩

/-- C5, counterexample: with an item record of an unexpected shape (the
string `"oops"`) first in the collection, the loop body raises
`AttributeError` at `item.get("slug")` and the run aborts — the well-shaped
item after it is never normalized or emitted, even though processing that
item alone succeeds. -/
theorem fault_containment_cex :
    (processAll (fun _ => false) []
        [("bad", Value.str "oops"),
         ("good", Value.dict [("remote_banner_url", Value.str "http://x/b.png")])]).1 =
      [] ∧
    (processAll (fun _ => false) []
        [("bad", Value.str "oops"),
         ("good", Value.dict [("remote_banner_url", Value.str "http://x/b.png")])]).2 =
      some PyErr.attributeError ∧
    (processItem (fun _ => false) [] "good"
        (Value.dict [("remote_banner_url", Value.str "http://x/b.png")])).isOk =
      true :=
  ⟨rfl, rfl, rfl⟩

/-- C5 (amended): the loop over items has no per-item fault barrier, so a
fault in one item's normalization aborts processing of the remaining items;
only when every item record is well-shaped (a mapping whose image fields and
`website_slug` are strings or absent/falsy) does the run emit every item —
and then it does so for any reviews collection whatsoever, since faults
inside review attachment are contained by its own `try/except`. -/
theorem fault_containment_amended (fs : String → Bool)
    (rmap : List (String × Value)) (entries : List (String × Value))
    (h : ∀ p ∈ entries, wellShapedItem p.2 = true) :
    (processAll fs rmap entries).2 = none ∧
      (processAll fs rmap entries).1.length = entries.length :=
  processAll_ok fs rmap entries h

/-- C5 witness: the amended theorem applied to a one-item collection with a
remote banner. -/
theorem fault_containment_witness :
    (∀ p ∈ [("good", Value.dict [("remote_banner_url", Value.str "http://x/b.png")])],
      wellShapedItem p.2 = true) ∧
    ((processAll (fun _ => false) []
        [("good", Value.dict [("remote_banner_url", Value.str "http://x/b.png")])]).2 =
      none ∧
     (processAll (fun _ => false) []
        [("good", Value.dict [("remote_banner_url", Value.str "http://x/b.png")])]).1.length =
      [("good", Value.dict [("remote_banner_url", Value.str "http://x/b.png")])].length) :=
  ⟨by intro p hp; simp only [List.mem_singleton] at hp; subst hp; rfl,
   fault_containment_amended (fun _ => false) [] _
     (by intro p hp; simp only [List.mem_singleton] at hp; subst hp; rfl)⟩

theorem sortReviewsPy_sorted (aug : List Value) :
    List.Sorted reviewGE (sortReviewsPy aug) := by
  unfold sortReviewsPy
  split_ifs with h1 h2
  · cases aug with
    | nil => exact List.sorted_nil
    | cons y ys =>
        cases ys with
        | nil => exact List.sorted_singleton y
        | cons z zs => simp at h1
  · exact List.sorted_insertionSort reviewGE aug
  · exact List.sorted_nil

theorem attachReviewsList_sorted (xs : List Value) :
    List.Sorted reviewGE (attachReviewsList xs) := by
  unfold attachReviewsList
  split_ifs
  · exact sortReviewsPy_sorted _
  · exact List.sorted_nil

theorem attach_reviews_sorted (rmap : List (String × Value)) (slug : Value)
    (key : String) : List.Sorted reviewGE (attach_reviews rmap slug key) := by
  unfold attach_reviews
  cases slug with
  | list xs => exact List.sorted_nil
  | dict kvs => exact List.sorted_nil
  | null =>
      dsimp only
      generalize Value.pyOr _ _ = raw
      cases raw <;> first | exact List.sorted_nil | exact attachReviewsList_sorted _
  | bool b =>
      dsimp only
      generalize Value.pyOr _ _ = raw
      cases raw <;> first | exact List.sorted_nil | exact attachReviewsList_sorted _
  | int n =>
      dsimp only
      generalize Value.pyOr _ _ = raw
      cases raw <;> first | exact List.sorted_nil | exact attachReviewsList_sorted _
  | str s =>
      dsimp only
      generalize Value.pyOr _ _ = raw
      cases raw <;> first | exact List.sorted_nil | exact attachReviewsList_sorted _
  | dt t =>
      dsimp only
      generalize Value.pyOr _ _ = raw
      cases raw <;> first | exact List.sorted_nil | exact attachReviewsList_sorted _

theorem sortReviewsPy_mem (aug : List Value) (r : Value)
    (h : r ∈ sortReviewsPy aug) : r ∈ aug := by
  unfold sortReviewsPy at h
  split_ifs at h
  · exact h
  · exact (List.mem_insertionSort reviewGE).mp h
  · cases h

theorem attach_reviews_from_augment (rmap : List (String × Value)) (slug : Value)
    (key : String) (r2 : Value) (h : r2 ∈ attach_reviews rmap slug key) :
    ∃ r, r.isDict = true ∧ r2 = augmentReviewV r := by
  have core : ∀ xs : List Value, r2 ∈ attachReviewsList xs →
      ∃ r, r.isDict = true ∧ r2 = augmentReviewV r := by
    intro xs hx
    unfold attachReviewsList at hx
    split_ifs at hx with hall
    · have hmem := sortReviewsPy_mem _ _ hx
      obtain ⟨r, hr, rfl⟩ := List.mem_map.mp hmem
      exact ⟨r, by simpa using List.all_eq_true.mp hall r hr, rfl⟩
    · cases hx
  unfold attach_reviews at h
  cases slug with
  | list xs => cases h
  | dict kvs => cases h
  | null =>
      dsimp only at h
      generalize Value.pyOr _ _ = raw at h
      cases raw <;> first | (exact absurd h (List.not_mem_nil r2)) | exact core _ h
  | bool b =>
      dsimp only at h
      generalize Value.pyOr _ _ = raw at h
      cases raw <;> first | (exact absurd h (List.not_mem_nil r2)) | exact core _ h
  | int n =>
      dsimp only at h
      generalize Value.pyOr _ _ = raw at h
      cases raw <;> first | (exact absurd h (List.not_mem_nil r2)) | exact core _ h
  | str s =>
      dsimp only at h
      generalize Value.pyOr _ _ = raw at h
      cases raw <;> first | (exact absurd h (List.not_mem_nil r2)) | exact core _ h
  | dt t =>
      dsimp only at h
      generalize Value.pyOr _ _ = raw at h
      cases raw <;> first | (exact absurd h (List.not_mem_nil r2)) | exact core _ h

/-- C6, counterexample: a review whose `date` field is absent is returned by
review attachment without the claimed parsed-date and epoch-milliseconds
fields — the keys are never added, rather than being present with `null`. -/
theorem review_attachment_cex :
    attach_reviews [("x", Value.list [Value.dict [("rating", Value.int 5)]])]
        (Value.str "x") "x" = [Value.dict [("rating", Value.int 5)]] ∧
      lookupKV [("rating", Value.int 5)] "date_parsed" = none ∧
      lookupKV [("rating", Value.int 5)] "date_epoch_ms" = none :=
  ⟨rfl, rfl, rfl⟩

/-- C6 (amended): review attachment looks the reviews collection up by slug
with the source key as fallback; every returned review is the augmentation of
one of the stored review dicts, where a review whose `date` is a non-empty
string gains `date_parsed`/`date_epoch_ms` (the parsed date and epoch
milliseconds on success, both `null` on parse failure) and any other review
is returned unaugmented; the result is sorted by parsed date descending with
missing or failed dates treated as the minimum date (sorting last).
Concretely, reviews dated `2024-01-01` and `2024-06-01` plus one dated
`"bogus"` come back in the order `2024-06-01`, `2024-01-01`, `"bogus"`. -/
theorem review_attachment_amended :
    (∀ (rmap : List (String × Value)) (slug : Value) (key : String),
      List.Sorted reviewGE (attach_reviews rmap slug key)) ∧
    (∀ (rmap : List (String × Value)) (slug : Value) (key : String)
        (r2 : Value), r2 ∈ attach_reviews rmap slug key →
      ∃ r, r.isDict = true ∧ r2 = augmentReviewV r) ∧
    (∀ (kvs : List (String × Value)) (s : String),
      dictGet kvs "date" = Value.str s → s ≠ "" →
      (fromisoformat s = none →
        dictGet (augmentReview kvs) "date_parsed" = Value.null ∧
        dictGet (augmentReview kvs) "date_epoch_ms" = Value.null) ∧
      (∀ t, fromisoformat s = some t →
        dictGet (augmentReview kvs) "date_parsed" = Value.dt t ∧
        dictGet (augmentReview kvs) "date_epoch_ms" = Value.int (epochMs t))) ∧
    (∀ kvs : List (String × Value),
      ((dictGet kvs "date").isStr = false ∨ dictGet kvs "date" = Value.str "") →
      augmentReview kvs = kvs) ∧
    (attach_reviews
        [("X", Value.list [Value.dict [("date", Value.str "2024-01-01")],
          Value.dict [("date", Value.str "2024-06-01")],
          Value.dict [("date", Value.str "bogus")]])]
        (Value.str "X") "X").map (fun r => valueGet r "date") =
      [Value.str "2024-06-01", Value.str "2024-01-01", Value.str "bogus"] ∧
    (attach_reviews
        [("X", Value.list [Value.dict [("date", Value.str "2024-01-01")],
          Value.dict [("date", Value.str "2024-06-01")],
          Value.dict [("date", Value.str "bogus")]])]
        (Value.str "X") "X").map (fun r => valueGet r "date_parsed") =
      [Value.dt ⟨2024, 6, 1, 0, 0, 0⟩, Value.dt ⟨2024, 1, 1, 0, 0, 0⟩,
        Value.null] := by
  refine ⟨attach_reviews_sorted, attach_reviews_from_augment,
    fun kvs s hd hs => ⟨fun hp => ?_, fun t hp => ?_⟩, fun kvs h => ?_, rfl, rfl⟩
  · unfold augmentReview
    rw [hd]
    simp only [hp]
    rw [if_pos hs]
    constructor
    · rw [dictGet_dictSet_ne _ _ _ _ (by decide), dictGet_dictSet_self]
    · rw [dictGet_dictSet_self]
  · unfold augmentReview
    rw [hd]
    simp only [hp]
    rw [if_pos hs]
    constructor
    · rw [dictGet_dictSet_ne _ _ _ _ (by decide), dictGet_dictSet_self]
    · rw [dictGet_dictSet_self]
  · unfold augmentReview
    rcases h with h | h
    · cases hv : dictGet kvs "date" with
      | str s2 => rw [hv] at h; simp [Value.isStr] at h
      | null => rfl
      | bool b => rfl
      | int n => rfl
      | list xs => rfl
      | dict kvs2 => rfl
      | dt t => rfl
    · rw [h]
      simp

/-- C6 witness: the augmentation rule applied to a review dated
`2024-06-01`. -/
theorem review_attachment_witness :
    dictGet [("date", Value.str "2024-06-01")] "date" =
        Value.str "2024-06-01" ∧
      ("2024-06-01" : String) ≠ "" ∧
      fromisoformat "2024-06-01" = some ⟨2024, 6, 1, 0, 0, 0⟩ ∧
      dictGet (augmentReview [("date", Value.str "2024-06-01")]) "date_parsed" =
        Value.dt ⟨2024, 6, 1, 0, 0, 0⟩ ∧
      dictGet (augmentReview [("date", Value.str "2024-06-01")]) "date_epoch_ms" =
        Value.int (epochMs ⟨2024, 6, 1, 0, 0, 0⟩) :=
  ⟨rfl, by decide, rfl,
    ((review_attachment_amended.2.2.1 [("date", Value.str "2024-06-01")]
        "2024-06-01" rfl (by decide)).2 ⟨2024, 6, 1, 0, 0, 0⟩ rfl).1,
    ((review_attachment_amended.2.2.1 [("date", Value.str "2024-06-01")]
        "2024-06-01" rfl (by decide)).2 ⟨2024, 6, 1, 0, 0, 0⟩ rfl).2⟩

theorem bindInvOk {α β : Type} (x : Except PyErr α) (f : α → Except PyErr β)
    (b : β) (h : (x >>= f) = .ok b) : ∃ a, x = .ok a ∧ f a = .ok b := by
  cases x with
  | error e => exact Except.noConfusion h
  | ok a => exact ⟨a, rfl, h⟩

/-- Inverting a successful `resolveLogo`: the resolved logo is empty,
remote, or an existence-checked local path. -/
theorem resolveLogo_inv (item : List (String × Value)) (fs : String → Bool)
    (v : Value) (h : resolveLogo item fs = .ok v) :
    v = Value.str "" ∨
    (∃ s, v = Value.str s ∧
      (strStartsWith s "http" = true ∨ strStartsWith s "//" = true)) ∨
    (∃ s, v = Value.str s ∧ fs s = true) := by
  unfold resolveLogo at h
  dsimp only at h
  by_cases hc : (choose_image item "local_logo_path" "remote_logo_url").truthy = true
  · have hp : Value.pyOr (choose_image item "local_logo_path" "remote_logo_url")
        (.str "") = choose_image item "local_logo_path" "remote_logo_url" := by
      unfold Value.pyOr
      rw [hc]
      simp
    rw [hp, hc] at h
    simp only [Bool.not_true] at h
    rw [if_neg (by simp)] at h
    cases hcv : choose_image item "local_logo_path" "remote_logo_url" with
    | str s =>
        rw [hcv] at h
        dsimp only at h
        split_ifs at h with h1 h2
        · rcases Bool.or_eq_true _ _ |>.mp h1 with h1 | h1
          · exact Or.inr (Or.inl ⟨s, (Except.ok.inj h).symm, Or.inl h1⟩)
          · exact Or.inr (Or.inl ⟨s, (Except.ok.inj h).symm, Or.inr h1⟩)
        · exact Or.inr (Or.inr ⟨s, (Except.ok.inj h).symm, h2⟩)
        · exact Or.inl (Except.ok.inj h).symm
    | null => rw [hcv] at hc; simp [Value.truthy] at hc
    | bool b2 => rw [hcv] at h; exact Except.noConfusion h
    | int n => rw [hcv] at h; exact Except.noConfusion h
    | list xs => rw [hcv] at h; exact Except.noConfusion h
    | dict kvs => rw [hcv] at h; exact Except.noConfusion h
    | dt t => rw [hcv] at h; exact Except.noConfusion h
  · have hp : Value.pyOr (choose_image item "local_logo_path" "remote_logo_url")
        (.str "") = Value.str "" := by
      unfold Value.pyOr
      simp only [Bool.not_eq_true] at hc
      rw [hc]
      simp
    rw [hp] at h
    simp at h
    exact Or.inl h.symm

/-- Inverting a successful `build_banner_html`: the markup is empty, the
placeholder (only when requested), a remote reference, or a prefixed
existence-checked local reference. -/
theorem build_banner_inv (item : List (String × Value)) (pfx : String)
    (ph : Bool) (fs : String → Bool) (r : String)
    (h : build_banner_html item pfx ph fs = .ok r) :
    r = "" ∨ (ph = true ∧ r = placeholderBannerHtml item) ∨
    (∃ b, r = bannerImgDiv b item ∧
      (strStartsWith b "http" = true ∨ strStartsWith b "//" = true)) ∨
    (∃ b, r = bannerImgDiv (pfx ++ b) item ∧ fs b = true) := by
  unfold build_banner_html at h
  dsimp only at h
  by_cases hc : (choose_image item "local_banner_path" "remote_banner_url").truthy = true
  · rw [hc] at h
    simp only [Bool.not_true] at h
    rw [if_neg (by simp)] at h
    cases hcv : choose_image item "local_banner_path" "remote_banner_url" with
    | str b =>
        rw [hcv] at h
        dsimp only at h
        split_ifs at h with h1 h2 h3
        · rcases Bool.or_eq_true _ _ |>.mp h1 with h1 | h1
          · exact Or.inr (Or.inr (Or.inl ⟨b, (Except.ok.inj h).symm, Or.inl h1⟩))
          · exact Or.inr (Or.inr (Or.inl ⟨b, (Except.ok.inj h).symm, Or.inr h1⟩))
        · exact Or.inl (Except.ok.inj h).symm
        · refine Or.inr (Or.inl ⟨?_, (Except.ok.inj h).symm⟩)
          simp only [Bool.not_eq_true] at h3
          simpa using h3
        · refine Or.inr (Or.inr (Or.inr ⟨b, (Except.ok.inj h).symm, ?_⟩))
          simp only [Bool.not_eq_true] at h2
          simpa using h2
    | null => rw [hcv] at hc; simp [Value.truthy] at hc
    | bool b2 => rw [hcv] at h; exact Except.noConfusion h
    | int n => rw [hcv] at h; exact Except.noConfusion h
    | list xs => rw [hcv] at h; exact Except.noConfusion h
    | dict kvs => rw [hcv] at h; exact Except.noConfusion h
    | dt t => rw [hcv] at h; exact Except.noConfusion h
  · simp only [Bool.not_eq_true] at hc
    rw [hc] at h
    simp only [Bool.not_false] at h
    rw [if_pos trivial] at h
    split_ifs at h with h1
    · exact Or.inl (Except.ok.inj h).symm
    · refine Or.inr (Or.inl ⟨?_, (Except.ok.inj h).symm⟩)
      simp only [Bool.not_eq_true] at h1
      simpa using h1

/-- C7, counterexample: for an item whose only image field is a local logo
path that fails the existence check, the item-page logo is cleared to `""`,
but the card built for the index falls back to the raw `local_logo_path` —
and the index card markup then references that unverified local path. -/
theorem image_invariant_cex :
    (processItem (fun _ => false) [] "k"
        (Value.dict [("local_logo_path", Value.str "media/missing.png")])).map
        (fun o => o.logo_url) = .ok (Value.str "") ∧
    (processItem (fun _ => false) [] "k"
        (Value.dict [("local_logo_path", Value.str "media/missing.png")])).map
        (fun o => o.card.logo) = .ok (Value.str "media/missing.png") ∧
    strStartsWith "media/missing.png" "http" = false ∧
    strStartsWith "media/missing.png" "//" = false ∧
    (fun _ => (false : Bool)) "media/missing.png" = false ∧
    (processItem (fun _ => false) [] "k"
        (Value.dict [("local_logo_path", Value.str "media/missing.png")])).map
        (fun o => buildCardImg o.card "../") =
      .ok (.ok ("<img src=\"../media/missing.png\" class=\"card-img-top card-media-img\" alt=\"Unnamed logo\">")) :=
  ⟨rfl, rfl, rfl, rfl, rfl, rfl⟩

/-- C7 (amended): the item-page logo and banner do satisfy the invariant —
the resolved logo is empty, remote, or an existence-checked local path, and
the banner markup is empty, the placeholder, a remote reference, or a
prefixed existence-checked local reference — but the card logo is the first
truthy of the cleared logo, the raw `local_logo_path` and the raw
`remote_logo_url`, so it can expose a local path that failed the existence
check (see the counterexample). -/
theorem image_invariant_amended :
    (∀ (item : List (String × Value)) (fs : String → Bool) (v : Value),
      resolveLogo item fs = .ok v →
      v = Value.str "" ∨
      (∃ s, v = Value.str s ∧
        (strStartsWith s "http" = true ∨ strStartsWith s "//" = true)) ∨
      (∃ s, v = Value.str s ∧ fs s = true)) ∧
    (∀ (item : List (String × Value)) (pfx : String) (ph : Bool)
        (fs : String → Bool) (r : String),
      build_banner_html item pfx ph fs = .ok r →
      r = "" ∨ r = placeholderBannerHtml item ∨
      (∃ b, r = bannerImgDiv b item ∧
        (strStartsWith b "http" = true ∨ strStartsWith b "//" = true)) ∨
      (∃ b, r = bannerImgDiv (pfx ++ b) item ∧ fs b = true)) ∧
    (∀ (fs : String → Bool) (rmap : List (String × Value)) (k : String)
        (it : List (String × Value)) (out : ItemOut),
      processItem fs rmap k (Value.dict it) = .ok out →
      out.card.logo = Value.pyOr out.logo_url
        (Value.pyOr (dictGet it "local_logo_path")
          (Value.pyOr (dictGet it "remote_logo_url") (Value.str "")))) := by
  refine ⟨fun item fs v h => resolveLogo_inv item fs v h,
    fun item pfx ph fs r h => ?_, fun fs rmap k it out h => ?_⟩
  · rcases build_banner_inv item pfx ph fs r h with h1 | ⟨hph, h1⟩ | h1 | h1
    · exact Or.inl h1
    · exact Or.inr (Or.inl h1)
    · exact Or.inr (Or.inr (Or.inl h1))
    · exact Or.inr (Or.inr (Or.inr h1))
  · simp only [processItem] at h
    obtain ⟨bs, hb, h⟩ := bindInvOk _ _ _ h
    obtain ⟨lv, hl, h⟩ := bindInvOk _ _ _ h
    obtain ⟨ov, ho, h⟩ := bindInvOk _ _ _ h
    have hout := Except.ok.inj h
    subst hout
    dsimp only
    rw [dictGet_dictSet_ne _ _ _ _ (by decide),
      dictGet_dictSet_ne _ _ _ _ (by decide),
      dictGet_dictSet_ne _ _ _ _ (by decide),
      dictGet_attachEpochField_ne _ _ _ (by decide) (by decide),
      dictGet_attachEpochField_ne _ _ _ (by decide) (by decide),
      dictGet_dictSet_ne _ _ _ _ (by decide),
      dictGet_dictSet_ne _ _ _ _ (by decide),
      dictGet_dictSet_ne _ _ _ _ (by decide),
      dictGet_attachEpochField_ne _ _ _ (by decide) (by decide),
      dictGet_attachEpochField_ne _ _ _ (by decide) (by decide)]

/-- C7 witness: the logo invariant applied to an item with an existing local
logo. -/
theorem image_invariant_witness :
    resolveLogo [("local_logo_path", Value.str "media/logo.png")]
        (fun _ => true) = .ok (Value.str "media/logo.png") ∧
      (Value.str "media/logo.png" = Value.str "" ∨
        (∃ s, Value.str "media/logo.png" = Value.str s ∧
          (strStartsWith s "http" = true ∨ strStartsWith s "//" = true)) ∨
        (∃ s, Value.str "media/logo.png" = Value.str s ∧
          (fun _ => (true : Bool)) s = true)) :=
  ⟨rfl, image_invariant_amended.1 [("local_logo_path", Value.str "media/logo.png")]
    (fun _ => true) (Value.str "media/logo.png") rfl⟩

/-- C8: the official URL is the first truthy of `website_url`, `website` and
the URL built from `website_slug` with the fixed template
`https://www.rit.edu/dining/location/<slug>`, else absent (`None`); the
ordering URL is absent unless `online_ordering_id` is present and non-null,
in which case it is `https://ondemand.rit.edu/?SE=<id>`. -/
theorem derived_urls (item : List (String × Value)) :
    ((dictGet item "website_url").truthy = true →
      computeOfficialUrl item = .ok (dictGet item "website_url")) ∧
    ((dictGet item "website_url").truthy = false →
      (dictGet item "website").truthy = true →
      computeOfficialUrl item = .ok (dictGet item "website")) ∧
    (∀ s : String, (dictGet item "website_url").truthy = false →
      (dictGet item "website").truthy = false →
      dictGet item "website_slug" = Value.str s → s ≠ "" →
      computeOfficialUrl item =
        .ok (Value.str ("https://www.rit.edu/dining/location/" ++ s))) ∧
    ((dictGet item "website_url").truthy = false →
      (dictGet item "website").truthy = false →
      (dictGet item "website_slug").truthy = false →
      computeOfficialUrl item = .ok Value.null) ∧
    (dictGet item "online_ordering_id" = Value.null →
      computeOrderingUrl item = Value.null) ∧
    (∀ v : Value, dictGet item "online_ordering_id" = v → v ≠ Value.null →
      computeOrderingUrl item =
        Value.str ("https://ondemand.rit.edu/?SE=" ++ pyStr v)) := by
  refine ⟨fun h1 => ?_, fun h1 h2 => ?_, fun s h1 h2 hs hne => ?_,
    fun h1 h2 h3 => ?_, fun h => ?_, fun v hv hne => ?_⟩
  · unfold computeOfficialUrl
    dsimp only
    rw [if_pos h1]
  · unfold computeOfficialUrl
    dsimp only
    rw [if_neg (by simp [h1]), if_pos h2]
  · unfold computeOfficialUrl
    dsimp only
    rw [if_neg (by simp [h1]), if_neg (by simp [h2]), hs,
      if_pos (by simp [Value.truthy, hne])]
    rfl
  · unfold computeOfficialUrl
    dsimp only
    rw [if_neg (by simp [h1]), if_neg (by simp [h2]), if_neg (by simp [h3])]
  · unfold computeOrderingUrl
    dsimp only
    rw [h]
    simp [Value.isNull]
  · unfold computeOrderingUrl
    dsimp only
    rw [hv]
    cases v with
    | null => exact absurd rfl hne
    | bool b => simp [Value.isNull]
    | int n => simp [Value.isNull]
    | str s => simp [Value.isNull]
    | list xs => simp [Value.isNull]
    | dict kvs => simp [Value.isNull]
    | dt t => simp [Value.isNull]

/-- C8 witness: an item with only a `website_slug` and a numeric ordering id
gets the two template-constructed URLs. -/
theorem derived_urls_witness :
    ((dictGet [("website_slug", Value.str "commons"),
        ("online_ordering_id", Value.int 100)] "website_url").truthy = false ∧
      (dictGet [("website_slug", Value.str "commons"),
        ("online_ordering_id", Value.int 100)] "website").truthy = false ∧
      dictGet [("website_slug", Value.str "commons"),
        ("online_ordering_id", Value.int 100)] "website_slug" =
        Value.str "commons" ∧
      ("commons" : String) ≠ "" ∧
      computeOfficialUrl [("website_slug", Value.str "commons"),
        ("online_ordering_id", Value.int 100)] =
        .ok (Value.str ("https://www.rit.edu/dining/location/" ++ "commons"))) ∧
    (dictGet [("website_slug", Value.str "commons"),
        ("online_ordering_id", Value.int 100)] "online_ordering_id" =
        Value.int 100 ∧
      Value.int 100 ≠ Value.null ∧
      computeOrderingUrl [("website_slug", Value.str "commons"),
        ("online_ordering_id", Value.int 100)] =
        Value.str ("https://ondemand.rit.edu/?SE=" ++ pyStr (Value.int 100))) :=
  ⟨⟨rfl, rfl, rfl, by decide,
    (derived_urls [("website_slug", Value.str "commons"),
      ("online_ordering_id", Value.int 100)]).2.2.1 "commons" rfl rfl rfl
      (by decide)⟩,
   ⟨rfl, fun hcon => Value.noConfusion hcon,
    (derived_urls [("website_slug", Value.str "commons"),
      ("online_ordering_id", Value.int 100)]).2.2.2.2.2 (Value.int 100) rfl
      (fun hcon => Value.noConfusion hcon)⟩⟩

theorem mem_dictSet (kvs : List (String × Value)) (k : String) (v : Value)
    (p : String × Value) (h : p ∈ dictSet kvs k v) : p = (k, v) ∨ p ∈ kvs := by
  induction kvs with
  | nil =>
      unfold dictSet at h
      rcases List.mem_singleton.mp h with rfl
      exact Or.inl rfl
  | cons q rest ih =>
      obtain ⟨k2, w⟩ := q
      unfold dictSet at h
      by_cases he : k2 = k
      · rw [if_pos he] at h
        rcases List.mem_cons.mp h with rfl | hm
        · subst he
          exact Or.inl rfl
        · exact Or.inr (List.mem_cons_of_mem _ hm)
      · rw [if_neg he] at h
        rcases List.mem_cons.mp h with rfl | hm
        · exact Or.inr (List.mem_cons_self _ _)
        · rcases ih hm with h2 | h2
          · exact Or.inl h2
          · exact Or.inr (List.mem_cons_of_mem _ h2)

/-- Once a key holds `True` in the accumulator, the payment-methods fold
keeps it at `True`. -/
theorem pmFold_preserve (xs : List Value) (acc : List (String × Value))
    (k : String) (h : lookupKV acc k = some (Value.bool true)) :
    lookupKV (xs.foldl (fun a x => dictSet a (pyStr x) (Value.bool true)) acc) k =
      some (Value.bool true) := by
  induction xs generalizing acc with
  | nil => exact h
  | cons y ys ih =>
      simp only [List.foldl_cons]
      apply ih
      by_cases he : pyStr y = k
      · rw [he, lookupKV_dictSet_self]
      · rw [lookupKV_dictSet_ne _ _ _ _ he]
        exact h

theorem pmFold_mem (xs : List Value) (acc : List (String × Value)) (x : Value)
    (hx : x ∈ xs) :
    lookupKV (xs.foldl (fun a x2 => dictSet a (pyStr x2) (Value.bool true)) acc)
        (pyStr x) = some (Value.bool true) := by
  induction xs generalizing acc with
  | nil => cases hx
  | cons y ys ih =>
      simp only [List.foldl_cons]
      rcases List.mem_cons.mp hx with rfl | hm
      · exact pmFold_preserve ys _ _ (lookupKV_dictSet_self acc _ _)
      · exact ih _ hm

theorem pmFold_bindings (xs : List Value) (acc : List (String × Value))
    (p : String × Value)
    (h : p ∈ xs.foldl (fun a x => dictSet a (pyStr x) (Value.bool true)) acc) :
    (p.2 = Value.bool true ∧ ∃ x ∈ xs, p.1 = pyStr x) ∨ p ∈ acc := by
  induction xs generalizing acc with
  | nil => exact Or.inr h
  | cons y ys ih =>
      simp only [List.foldl_cons] at h
      rcases ih _ h with ⟨hv, x, hx, hk⟩ | hacc
      · exact Or.inl ⟨hv, x, List.mem_cons_of_mem _ hx, hk⟩
      · rcases mem_dictSet _ _ _ _ hacc with rfl | hm
        · exact Or.inl ⟨rfl, y, List.mem_cons_self _ _, rfl⟩
        · exact Or.inr hm

/-- C9: `payment_methods` given as a sequence becomes the mapping sending
each element's string form to `True` (a mapping passes through, anything
else becomes `{}`); `tags` given as a string is split on commas, each piece
stripped, empty pieces dropped, order preserved (a sequence passes through,
anything else becomes `[]`).  Concretely `"a, b ,c"` gives `["a","b","c"]`,
an absent tags value gives `[]`, and `["cash","card"]` gives
`{"cash": True, "card": True}`. -/
theorem payment_tags_normalization :
    (∀ xs : List Value, ∃ kvs,
      normalizePaymentMethods (Value.list xs) = Value.dict kvs ∧
      (∀ x ∈ xs, lookupKV kvs (pyStr x) = some (Value.bool true)) ∧
      (∀ p ∈ kvs, p.2 = Value.bool true ∧ ∃ x ∈ xs, p.1 = pyStr x)) ∧
    (∀ kvs : List (String × Value),
      normalizePaymentMethods (Value.dict kvs) = Value.dict kvs) ∧
    (∀ v : Value, v.isList = false → v.isDict = false →
      normalizePaymentMethods v = Value.dict []) ∧
    (∀ s : String, normalizeTags (Value.str s) =
      Value.list ((((splitOnComma s).map strStrip).filter
        (fun t => t ≠ "")).map Value.str)) ∧
    (∀ xs : List Value, normalizeTags (Value.list xs) = Value.list xs) ∧
    (∀ v : Value, v.isList = false → v.isStr = false →
      normalizeTags v = Value.list []) ∧
    normalizeTags (Value.str "a, b ,c") =
      Value.list [Value.str "a", Value.str "b", Value.str "c"] ∧
    normalizeTags Value.null = Value.list [] ∧
    normalizePaymentMethods (Value.list [Value.str "cash", Value.str "card"]) =
      Value.dict [("cash", Value.bool true), ("card", Value.bool true)] := by
  refine ⟨fun xs => ⟨_, rfl, fun x hx => pmFold_mem xs [] x hx,
      fun p hp => ?_⟩, fun kvs => rfl, fun v h1 h2 => ?_, fun s => rfl,
    fun xs => rfl, fun v h1 h2 => ?_, rfl, rfl, rfl⟩
  · rcases pmFold_bindings xs [] p hp with h | h
    · exact h
    · cases h
  · cases v with
    | list xs => simp [Value.isList] at h1
    | dict kvs => simp [Value.isDict] at h2
    | null => rfl
    | bool b => rfl
    | int n => rfl
    | str s => rfl
    | dt t => rfl
  · cases v with
    | list xs => simp [Value.isList] at h1
    | str s => simp [Value.isStr] at h2
    | null => rfl
    | bool b => rfl
    | int n => rfl
    | dict kvs => rfl
    | dt t => rfl

/-- C9 witness: the sequence rule applied to `["cash","card"]` — both keys
look up to `True`. -/
theorem payment_tags_witness :
    ∃ kvs, normalizePaymentMethods
        (Value.list [Value.str "cash", Value.str "card"]) = Value.dict kvs ∧
      (∀ x ∈ [Value.str "cash", Value.str "card"],
        lookupKV kvs (pyStr x) = some (Value.bool true)) ∧
      (∀ p ∈ kvs, p.2 = Value.bool true ∧
        ∃ x ∈ [Value.str "cash", Value.str "card"], p.1 = pyStr x) :=
  payment_tags_normalization.1 [Value.str "cash", Value.str "card"]

/-- C10: the homepage banner is built with the placeholder suppressed
(`placeholder_if_missing=False`, empty media prefix): when the banner fields
are absent/falsy, or the chosen banner is a local path that does not exist,
the homepage banner markup is exactly `""`; in every successful case the
markup is `""`, a remote banner reference, or an existence-checked local
banner reference — never the placeholder. -/
theorem homepage_banner_suppressed (homepage : List (String × Value))
    (fs : String → Bool) :
    ((choose_image homepage "local_banner_path" "remote_banner_url").truthy = false →
      homepageBannerHtml homepage fs = .ok "") ∧
    (∀ b : String,
      choose_image homepage "local_banner_path" "remote_banner_url" = Value.str b →
      b ≠ "" → strStartsWith b "http" = false → strStartsWith b "//" = false →
      fs b = false → homepageBannerHtml homepage fs = .ok "") ∧
    (∀ r : String, homepageBannerHtml homepage fs = .ok r →
      r = "" ∨
      (∃ b, r = bannerImgDiv b homepage ∧
        (strStartsWith b "http" = true ∨ strStartsWith b "//" = true)) ∨
      (∃ b, r = bannerImgDiv ("" ++ b) homepage ∧ fs b = true)) := by
  refine ⟨fun hf => ?_, fun b hc hne h1 h2 hfs => ?_, fun r h => ?_⟩
  · unfold homepageBannerHtml build_banner_html
    dsimp only
    simp [hf]
  · unfold homepageBannerHtml build_banner_html
    rw [hc]
    dsimp only
    have ht : (Value.str b).truthy = true := by simp [Value.truthy, hne]
    simp [ht, h1, h2, hfs]
  · rcases build_banner_inv homepage "" false fs r h with h1 | ⟨hph, h1⟩ | h1 | h1
    · exact Or.inl h1
    · exact Bool.noConfusion hph
    · exact Or.inr (Or.inl h1)
    · exact Or.inr (Or.inr h1)

/-- C10 witness: a homepage whose only banner field is a local path missing
on disk gets the empty banner markup, not a placeholder. -/
theorem homepage_banner_witness :
    choose_image [("local_banner_path", Value.str "media/hero.png")]
        "local_banner_path" "remote_banner_url" = Value.str "media/hero.png" ∧
    ("media/hero.png" : String) ≠ "" ∧
    strStartsWith "media/hero.png" "http" = false ∧
    strStartsWith "media/hero.png" "//" = false ∧
    (fun _ => (false : Bool)) "media/hero.png" = false ∧
    homepageBannerHtml [("local_banner_path", Value.str "media/hero.png")]
        (fun _ => false) = .ok "" :=
  ⟨rfl, by decide, rfl, rfl, rfl,
   (homepage_banner_suppressed [("local_banner_path", Value.str "media/hero.png")]
      (fun _ => false)).2.1 "media/hero.png" rfl (by decide) rfl rfl rfl⟩

end RitFood
